import Mathlib

/-!
Verification development for the NBA repository analytics core.

The definitions below are a shallow embedding of two source modules:

* src/nba_processor/engines/espn_pbp_engine.py (class ESPNPlayByPlayEngine)
* src/processors/player_stats_processor.py together with src/utils/helpers.py

Python dictionaries become Lean structures, Python ints become Int, Python
floats become Rat (exact arithmetic), and the value None of an optional
field is represented by the empty string (matching Python truthiness at
every use site in the source) or by Option where the source distinguishes
absence structurally.
-/

namespace NBA

/-- Side of a play as recorded by the upstream scraper: the source stores
the strings "away", "home" or the empty string in the team_side key. -/
inductive Side where
  | away
  | home
  | blank
deriving DecidableEq, Repr

/-- One play-by-play event, mirroring the play dictionaries consumed by
ESPNPlayByPlayEngine: cumulative scores after the event, the scoring flag,
the attributed side, player and team, the point value of the play, the
period number, the clock string and the classified play type. -/
structure Play where
  scoring_play : Bool
  away_score : Int
  home_score : Int
  team_side : Side
  team : String
  player : String
  score_value : Int
  period : Int
  time : String
  play_type : String
  text : String
deriving DecidableEq, Repr

/-- Engine state built by ESPNPlayByPlayEngine.__init__: the play list and
final scores from the parsed ESPN PBP document, plus the authoritative
away and home scores taken from basic_info of game_data. -/
structure Engine where
  plays : List Play
  away_team : String
  home_team : String
  final_away : Int
  final_home : Int
  actual_away : Int
  actual_home : Int
deriving Repr

/-- Score snapshot string, mirroring the f-string "away-home" used
throughout the engine. -/
def formatScore (a h : Int) : String :=
  toString a ++ "-" ++ toString h

/-- Clock parser mirroring ESPNPlayByPlayEngine._parse_time_minutes: the
regular expression (digits)+ colon (digits)+ matched at the start of the
string; returns the two digit groups, or none when the string is empty or
the pattern does not match a prefix. -/
def parseClock (s : String) : Option (Nat × Nat) :=
  if s = "" then none
  else
    let cs := s.toList
    let d1 := cs.takeWhile Char.isDigit
    if d1 = [] then none
    else
      match cs.drop d1.length with
      | ':' :: rest =>
        let d2 := rest.takeWhile Char.isDigit
        if d2 = [] then none
        else some (d1.foldl (fun n c => 10 * n + (c.toNat - 48)) 0,
                   d2.foldl (fun n c => 10 * n + (c.toNat - 48)) 0)
      | _ => none

/-- Minutes remaining as an exact rational: group1 + group2 / 60, as in
_parse_time_minutes. -/
def parse_time_minutes (s : String) : Option ℚ :=
  (parseClock s).map (fun p => (p.1 : ℚ) + (p.2 : ℚ) / 60)

/-- Winner resolution from ESPNPlayByPlayEngine.__init__: use the
authoritative basic_info scores when either is positive, otherwise fall
back to the final scores of the play-by-play document. -/
def winnerSide (e : Engine) : Side :=
  if e.actual_away > 0 ∨ e.actual_home > 0 then
    (if e.actual_home > e.actual_away then Side.home else Side.away)
  else
    (if e.final_home > e.final_away then Side.home else Side.away)

/-- Winner team name, as set in __init__. -/
def winnerTeam (e : Engine) : String :=
  if winnerSide e = Side.home then e.home_team else e.away_team

/-- Stable insertion of an element into a list sorted descending by the
given key; an element is placed before the first strictly smaller or equal
key seen later in the input, so the overall sort below is stable. -/
def insertByDesc (key : α → Int) (x : α) : List α → List α
  | [] => [x]
  | y :: ys => if key y ≤ key x then x :: y :: ys else y :: insertByDesc key x ys

/-- Stable descending sort by an integer key, mirroring the Python calls
list.sort with a points key and reverse set to true. -/
def sortByDesc (key : α → Int) (l : List α) : List α :=
  l.foldr (insertByDesc key) []

/-- Team scoring run record, mirroring the current_run dictionary of
analyze_team_scoring_runs; a team value of the empty string stands for the
Python value None (both are falsy at every check in the source). -/
structure Run where
  team : String
  team_side : Side
  points : Int
  start_time : String
  end_time : String
  start_period : Int
  end_period : Int
  start_score : String
  end_score : String
deriving DecidableEq, Repr

/-- Initial and reset value of the run tracker. -/
def emptyRun : Run :=
  ⟨"", Side.blank, 0, "", "", 0, 0, "", ""⟩

/-- Fold state of the team scoring run pass: emitted runs, open run
tracker, and the cumulative scores at the previous scoring play. -/
structure RunPass where
  runs : List Run
  cur : Run
  prevAway : Int
  prevHome : Int
deriving Repr

/-- One iteration of the loop body of analyze_team_scoring_runs: skip
non-scoring plays; attribute the score delta to the declared side when
that delta is positive, extending the open run on the same side or closing
it (emit when at or above the threshold) and opening a new one; otherwise
flush the open run and reset the tracker. -/
def teamRunStep (minPoints : Int) (st : RunPass) (p : Play) : RunPass :=
  if !p.scoring_play then st
  else
    let awayScored := p.away_score - st.prevAway
    let homeScored := p.home_score - st.prevHome
    if p.team_side = Side.away ∧ awayScored > 0 then
      if st.cur.team_side = Side.away then
        { st with
          cur := { st.cur with
            points := st.cur.points + awayScored,
            end_time := p.time, end_period := p.period,
            end_score := formatScore p.away_score p.home_score },
          prevAway := p.away_score, prevHome := p.home_score }
      else
        { runs := st.runs ++ (if st.cur.team ≠ "" ∧ st.cur.points ≥ minPoints then [st.cur] else []),
          cur := { team := p.team, team_side := Side.away, points := awayScored,
                   start_time := p.time, end_time := p.time,
                   start_period := p.period, end_period := p.period,
                   start_score := formatScore st.prevAway st.prevHome,
                   end_score := formatScore p.away_score p.home_score },
          prevAway := p.away_score, prevHome := p.home_score }
    else if p.team_side = Side.home ∧ homeScored > 0 then
      if st.cur.team_side = Side.home then
        { st with
          cur := { st.cur with
            points := st.cur.points + homeScored,
            end_time := p.time, end_period := p.period,
            end_score := formatScore p.away_score p.home_score },
          prevAway := p.away_score, prevHome := p.home_score }
      else
        { runs := st.runs ++ (if st.cur.team ≠ "" ∧ st.cur.points ≥ minPoints then [st.cur] else []),
          cur := { team := p.team, team_side := Side.home, points := homeScored,
                   start_time := p.time, end_time := p.time,
                   start_period := p.period, end_period := p.period,
                   start_score := formatScore st.prevAway st.prevHome,
                   end_score := formatScore p.away_score p.home_score },
          prevAway := p.away_score, prevHome := p.home_score }
    else
      { runs := st.runs ++ (if st.cur.team ≠ "" ∧ st.cur.points ≥ minPoints then [st.cur] else []),
        cur := emptyRun,
        prevAway := p.away_score, prevHome := p.home_score }

/-- Full analyze_team_scoring_runs: fold the pass over the plays, flush the
trailing run, and sort descending by points (the source default threshold
is 8). -/
def analyze_team_scoring_runs (e : Engine) (minPoints : Int) : List Run :=
  if e.plays = [] then []
  else
    let st := e.plays.foldl (teamRunStep minPoints) ⟨[], emptyRun, 0, 0⟩
    sortByDesc Run.points
      (st.runs ++ (if st.cur.team ≠ "" ∧ st.cur.points ≥ minPoints then [st.cur] else []))

/-- Player point streak record, mirroring the current_streak dictionary of
analyze_player_point_streaks; an empty player string stands for the Python
value None. -/
structure Streak where
  player : String
  team : String
  team_side : Side
  points : Int
  start_time : String
  end_time : String
  start_period : Int
  end_period : Int
  start_score : String
  end_score : String
deriving DecidableEq, Repr

/-- Initial and reset value of the streak tracker. -/
def emptyStreak : Streak :=
  ⟨"", "", Side.blank, 0, "", "", 0, 0, "", ""⟩

/-- Fold state of the player point streak pass. -/
structure StreakPass where
  streaks : List Streak
  cur : Streak
  prevAway : Int
  prevHome : Int
deriving Repr

/-- Effective point value of a scoring play in the streak pass: the
score_value of the play, or, when that is zero, the sum of the away and
home cumulative-score deltas since the previous tracked play. -/
def effPoints (st : StreakPass) (p : Play) : Int :=
  if p.score_value = 0 then
    (p.away_score - st.prevAway) + (p.home_score - st.prevHome)
  else p.score_value

/-- One iteration of the loop body of analyze_player_point_streaks: skip
non-scoring plays entirely; for a scoring play with an empty player or a
non-positive effective value, advance the previous-score tracker only;
otherwise extend the open streak when the player matches, or close it
(emit when at or above the threshold) and open a new streak. -/
def streakStep (minPoints : Int) (st : StreakPass) (p : Play) : StreakPass :=
  if !p.scoring_play then st
  else
    let pts := effPoints st p
    if p.player = "" ∨ pts ≤ 0 then
      { st with prevAway := p.away_score, prevHome := p.home_score }
    else if st.cur.player = p.player then
      { st with
        cur := { st.cur with
          points := st.cur.points + pts,
          end_time := p.time, end_period := p.period,
          end_score := formatScore p.away_score p.home_score },
        prevAway := p.away_score, prevHome := p.home_score }
    else
      { streaks := st.streaks ++ (if st.cur.player ≠ "" ∧ st.cur.points ≥ minPoints then [st.cur] else []),
        cur := { player := p.player, team := p.team, team_side := p.team_side,
                 points := pts,
                 start_time := p.time, end_time := p.time,
                 start_period := p.period, end_period := p.period,
                 start_score := formatScore st.prevAway st.prevHome,
                 end_score := formatScore p.away_score p.home_score },
        prevAway := p.away_score, prevHome := p.home_score }

/-- Full analyze_player_point_streaks: fold the pass over the plays, flush
the trailing streak, and sort descending by points (the source default
threshold is 6). -/
def analyze_player_point_streaks (e : Engine) (minPoints : Int) : List Streak :=
  if e.plays = [] then []
  else
    let st := e.plays.foldl (streakStep minPoints) ⟨[], emptyStreak, 0, 0⟩
    sortByDesc Streak.points
      (st.streaks ++ (if st.cur.player ≠ "" ∧ st.cur.points ≥ minPoints then [st.cur] else []))

/-- Comeback record emitted by analyze_biggest_comeback. -/
structure Comeback where
  team : String
  team_side : Side
  deficit : Int
  deficit_time : String
  deficit_period : Int
  deficit_score : String
  won : Bool
  never_trailed : Bool
  final_score : String
deriving DecidableEq, Repr

/-- Instantaneous deficit faced by the eventual winner at a play: the
margin clamped at zero, in the direction read off the winner side, exactly
as computed inside the loop of analyze_biggest_comeback. -/
def playDeficit (e : Engine) (p : Play) : Int :=
  let margin := p.away_score - p.home_score
  if winnerSide e = Side.away then (if margin < 0 then -margin else 0)
  else (if margin > 0 then margin else 0)

/-- Fold state of the comeback pass: running maximum deficit with its
provenance fields. -/
structure ComebackPass where
  maxDef : Int
  time : String
  period : Int
  score : String
deriving Repr

/-- One iteration of the loop body of analyze_biggest_comeback. -/
def comebackStep (e : Engine) (st : ComebackPass) (p : Play) : ComebackPass :=
  let deficit := playDeficit e p
  if deficit > st.maxDef then
    ⟨deficit, p.time, p.period, formatScore p.away_score p.home_score⟩
  else st

/-- Full analyze_biggest_comeback: none for an empty play list; otherwise
the maximum deficit with provenance, or the never-trailed record when the
maximum is zero. -/
def analyze_biggest_comeback (e : Engine) : Option Comeback :=
  if e.plays = [] then none
  else
    let st := e.plays.foldl (comebackStep e) ⟨0, "", 0, ""⟩
    if st.maxDef = 0 then
      some ⟨winnerTeam e, winnerSide e, 0, "", 0, "", true, true,
            formatScore e.final_away e.final_home⟩
    else
      some ⟨winnerTeam e, winnerSide e, st.maxDef, st.time, st.period, st.score,
            true, false, formatScore e.final_away e.final_home⟩

/-- Per-player clutch accumulation record. -/
structure ClutchStat where
  player : String
  points : Int
  fg : Int
  ft : Int
  three : Int
deriving DecidableEq, Repr

/-- Clutch result: one list per side, mirroring the result dictionary of
analyze_clutch_scoring. -/
structure ClutchResult where
  away : List ClutchStat
  home : List ClutchStat
deriving DecidableEq, Repr

/-- Contiguous sublist test for character lists. -/
def listInfix (n : List Char) : List Char → Bool
  | [] => n.isEmpty
  | c :: t => n.isPrefixOf (c :: t) || listInfix n t

/-- Substring test, mirroring the Python membership operator on strings. -/
def strContains (needle hay : String) : Bool :=
  listInfix needle.toList hay.toList

/-- Guard chain of the loop body of analyze_clutch_scoring deciding
whether a play contributes to the clutch accumulators: period must be the
final regulation period 4, the clock must parse and be strictly under the
window, the play must be a scoring play, and player, side and point value
must all be present and nonzero. -/
def clutchContributes (finalMinutes : ℚ) (p : Play) : Bool :=
  if p.period ≠ 4 then false
  else
    match parse_time_minutes p.time with
    | none => false
    | some m =>
      if m ≥ finalMinutes then false
      else if !p.scoring_play then false
      else if p.player = "" ∨ p.team_side = Side.blank ∨ p.score_value = 0 then false
      else true

/-- Update of one clutch stat record for one contributing play: add the
points, then classify the make from the play type tag (free throw, three,
or other made field goal), as in the source. -/
def clutchUpdate (play_type : String) (pts : Int) (s : ClutchStat) : ClutchStat :=
  let s := { s with points := s.points + pts }
  if strContains "ft" play_type ∨ strContains "free_throw" play_type then
    { s with ft := s.ft + 1 }
  else if strContains "three" play_type then
    { s with fg := s.fg + 1, three := s.three + 1 }
  else if strContains "made" play_type then
    { s with fg := s.fg + 1 }
  else s

/-- Insertion-ordered per-player accumulation, mirroring the Python dict
keyed by player name (insertion order preserved). -/
def updStats (player : String) (pts : Int) (play_type : String) :
    List ClutchStat → List ClutchStat
  | [] => [clutchUpdate play_type pts ⟨player, 0, 0, 0, 0⟩]
  | s :: rest =>
    if s.player = player then clutchUpdate play_type pts s :: rest
    else s :: updStats player pts play_type rest

/-- Full analyze_clutch_scoring: accumulate contributing plays per side and
per player, then sort each side descending by points (the source default
window is 5 minutes). -/
def analyze_clutch_scoring (e : Engine) (finalMinutes : ℚ) : ClutchResult :=
  if e.plays = [] then ⟨[], []⟩
  else
    let acc := e.plays.foldl
      (fun (acc : List ClutchStat × List ClutchStat) p =>
        if clutchContributes finalMinutes p then
          match p.team_side with
          | Side.away => (updStats p.player p.score_value p.play_type acc.1, acc.2)
          | Side.home => (acc.1, updStats p.player p.score_value p.play_type acc.2)
          | Side.blank => acc
        else acc)
      ([], [])
    ⟨sortByDesc ClutchStat.points acc.1, sortByDesc ClutchStat.points acc.2⟩

/-- Shot information record built for a go-ahead play in
analyze_game_winning_shots. -/
structure Shot where
  player : String
  team : String
  team_side : Side
  time : String
  period : Int
  points : Int
  play_type : String
  score : String
  text : String
deriving DecidableEq, Repr

/-- Result of analyze_game_winning_shots. -/
structure GwsResult where
  clutch_go_ahead : Option Shot
  decisive_shot : Option Shot
deriving DecidableEq, Repr

/-- Shot record for a play, as assembled in the source loop. -/
def shotInfo (p : Play) : Shot :=
  ⟨p.player, p.team, p.team_side, p.time, p.period, p.score_value,
   p.play_type, formatScore p.away_score p.home_score, p.text⟩

/-- Clutch window test of analyze_game_winning_shots: the clock parses and
is strictly under 2 minutes. -/
def underTwoMinutes (s : String) : Bool :=
  match parse_time_minutes s with
  | some m => decide (m < 2)
  | none => false

/-- Go-ahead test of the loop body of analyze_game_winning_shots, with the
previous cumulative scores as arguments: the away branch fires for an away
play when the away side is the winner and the margin moves from at most
zero to positive; the home branch is symmetric. -/
def isGoAhead (e : Engine) (pa ph : Int) (p : Play) : Bool :=
  decide ((p.team_side = Side.away ∧ winnerSide e = Side.away ∧
           pa - ph ≤ 0 ∧ p.away_score - p.home_score > 0) ∨
          (p.team_side = Side.home ∧ winnerSide e = Side.home ∧
           pa - ph ≥ 0 ∧ p.away_score - p.home_score < 0))

/-- Clutch window of the game-winning-shot pass: period 4 and a clock
that parses strictly under 2 minutes. -/
def gwsWindow (p : Play) : Bool :=
  decide (p.period = 4) && underTwoMinutes p.time

/-- Fold state of the game-winning-shot pass. -/
structure GwsPass where
  prevAway : Int
  prevHome : Int
  lastGA : Option Shot
  clutchGA : Option Shot
deriving Repr

/-- One iteration of the loop body of analyze_game_winning_shots: every
play advances the previous-score tracker; a scoring play by the winner
side whose margin moves from non-favorable to favorable records the shot
as the latest go-ahead, and additionally as the clutch go-ahead when it
falls in period 4 with a parsed clock strictly under 2 minutes. -/
def gwsStep (e : Engine) (st : GwsPass) (p : Play) : GwsPass :=
  if !p.scoring_play then
    { st with prevAway := p.away_score, prevHome := p.home_score }
  else if isGoAhead e st.prevAway st.prevHome p then
    { prevAway := p.away_score, prevHome := p.home_score,
      lastGA := some (shotInfo p),
      clutchGA := if gwsWindow p then some (shotInfo p) else st.clutchGA }
  else
    { st with prevAway := p.away_score, prevHome := p.home_score }

/-- Full analyze_game_winning_shots. -/
def analyze_game_winning_shots (e : Engine) : GwsResult :=
  if e.plays = [] then ⟨none, none⟩
  else
    let st := e.plays.foldl (gwsStep e) ⟨0, 0, none, none⟩
    ⟨st.clutchGA, st.lastGA⟩

/-- Combined result bundle of ESPNPlayByPlayEngine.analyze. -/
structure AnalyzeResult where
  team_scoring_runs : List Run
  player_point_streaks : List Streak
  biggest_comeback : Option Comeback
  clutch_scoring : ClutchResult
  game_winning_shots : GwsResult
deriving Repr

/-- Top-level analyze: the source returns the literal empty dictionary
(no sub-result keys at all) when the play list is empty, modelled here as
none; otherwise it returns the five sub-analyses at their source default
thresholds. -/
def analyze (e : Engine) : Option AnalyzeResult :=
  if e.plays = [] then none
  else
    some ⟨analyze_team_scoring_runs e 8,
          analyze_player_point_streaks e 6,
          analyze_biggest_comeback e,
          analyze_clutch_scoring e 5,
          analyze_game_winning_shots e⟩

/-- Margin favorability of the game-winning-shot specification: a margin
favors the away side when positive and the home side when negative; no
margin favors an unattributed side. -/
def favorableFor (s : Side) (margin : Int) : Bool :=
  match s with
  | Side.away => decide (margin > 0)
  | Side.home => decide (margin < 0)
  | Side.blank => false

/-- Go-ahead candidate test written from the specification wording, for
comparison with the source test isGoAhead: a scoring play attributed to
the eventual winner side whose margin moves from non-favorable to strictly
favorable for that side. -/
def specGoAhead (e : Engine) (pa ph : Int) (p : Play) : Bool :=
  p.scoring_play && decide (p.team_side = winnerSide e) &&
    !favorableFor p.team_side (pa - ph) &&
    favorableFor p.team_side (p.away_score - p.home_score)

/-- Go-ahead candidate list of a play sequence, written from the
specification wording: walk the plays with the running score and collect
the plays passing the specification candidate test. -/
def goAheadCands (e : Engine) : Int → Int → List Play → List Play
  | _, _, [] => []
  | pa, ph, p :: rest =>
    if specGoAhead e pa ph p then p :: goAheadCands e p.away_score p.home_score rest
    else goAheadCands e p.away_score p.home_score rest

/-- Shot record of the last play of a list, or the fallback for the empty
list. -/
def lastShot (ps : List Play) (d : Option Shot) : Option Shot :=
  match ps.getLast? with
  | some p => some (shotInfo p)
  | none => d

/-- Whitespace test matching the character class used by the Python regex
and by str.split with no argument (ASCII whitespace). -/
def pyIsSpace (c : Char) : Bool :=
  c = ' ' ∨ c = '\t' ∨ c = '\n' ∨ c = '\x0d' ∨ c = '\x0b' ∨ c = '\x0c'

/-- The suffix alternatives of the normalize_name regex, lowercased: the
pattern whitespace+ (Jr optionally dotted, Sr optionally dotted, III, II,
IV) anchored at the end of the string, case-insensitive. -/
def suffixTokens : List (List Char) :=
  ["jr", "jr.", "sr", "sr.", "iii", "ii", "iv"].map String.toList

/-- Suffix stripping step of normalize_name: when the final whitespace-free
token of the name matches one of the suffix alternatives case-insensitively
and is preceded by at least one whitespace character, remove the token and
the whole whitespace block before it (the regex match region). -/
def stripNameSuffix (cs : List Char) : List Char :=
  let r := cs.reverse
  let token := r.takeWhile (fun c => !pyIsSpace c)
  let rest := r.drop token.length
  if token ≠ [] ∧ rest.takeWhile pyIsSpace ≠ [] ∧
     suffixTokens.contains (token.reverse.map Char.toLower) then
    (rest.dropWhile pyIsSpace).reverse
  else cs

/-- Whitespace-separated word list, as produced by str.split with no
argument: runs of whitespace separate words, empty words never occur. -/
def pyWordsAux : List Char → List Char → List (List Char)
  | [], acc => if acc = [] then [] else [acc.reverse]
  | c :: cs, acc =>
    if pyIsSpace c then
      (if acc = [] then pyWordsAux cs [] else acc.reverse :: pyWordsAux cs [])
    else pyWordsAux cs (c :: acc)

/-- Normalization of a player name for identity matching, mirroring
helpers.normalize_name: empty guard, suffix strip, removal of every period
character, whitespace collapse via split and single-space join, final
strip and lowercase. -/
def normalize_name (name : String) : String :=
  if name = "" then ""
  else
    let cs := stripNameSuffix name.toList
    let cs := cs.filter (fun c => c ≠ '.')
    let cs := List.intercalate [' '] (pyWordsAux cs [])
    let cs := (cs.dropWhile pyIsSpace).reverse
    let cs := (cs.dropWhile pyIsSpace).reverse
    String.mk (cs.map Char.toLower)

/-- Identity key of one player-game row in _aggregate_player_stats: the
upstream player identifier when truthy, else the normalized name. -/
def aggKey (player_id player_name : String) : String :=
  if player_id ≠ "" then player_id else normalize_name player_name

/-- Stat line of one player-game row restricted to the five milestone
categories, after the safe integer coercion applied in the source. -/
structure StatLine where
  pts : Int
  trb : Int
  ast : Int
  stl : Int
  blk : Int
deriving DecidableEq, Repr

/-- Number of milestone categories at or above the threshold, as counted
by helpers.is_triple_double and helpers.is_double_double. -/
def milestoneCount (threshold : Int) (s : StatLine) : Nat :=
  [s.pts, s.trb, s.ast, s.stl, s.blk].countP (fun v => threshold ≤ v)

/-- helpers.is_triple_double with its default threshold 10. -/
def is_triple_double (s : StatLine) : Bool :=
  3 ≤ milestoneCount 10 s

/-- helpers.is_double_double with its default threshold 10. -/
def is_double_double (s : StatLine) : Bool :=
  2 ≤ milestoneCount 10 s

/-- Milestone classification of one player-game row. -/
inductive Milestone where
  | triple
  | double
  | neither
deriving DecidableEq, Repr

/-- Classification logic of _aggregate_player_stats: the triple-double
branch is tried first, the double-double branch only on its failure. -/
def classifyMilestone (s : StatLine) : Milestone :=
  if is_triple_double s then Milestone.triple
  else if is_double_double s then Milestone.double
  else Milestone.neither

/-- Rounding to three decimal places over exact rationals, modelling the
Python round(x, 3) calls of the shooting formulas. -/
def round3 (q : ℚ) : ℚ :=
  ((round (1000 * q) : Int) : ℚ) / 1000

/-- helpers.calculate_true_shooting: PTS / (2 * (FGA + 0.44 * FTA)),
rounded to three decimals, none on a zero denominator. -/
def calculate_true_shooting (pts fga fta : Int) : Option ℚ :=
  let den : ℚ := 2 * ((fga : ℚ) + 44 / 100 * (fta : ℚ))
  if den = 0 then none else some (round3 ((pts : ℚ) / den))

/-- helpers.calculate_effective_fg_pct: (FG + 0.5 * FG3) / FGA, rounded to
three decimals, none on zero attempts. -/
def calculate_effective_fg_pct (fg fg3 fga : Int) : Option ℚ :=
  if fga = 0 then none
  else some (round3 (((fg : ℚ) + 1 / 2 * (fg3 : ℚ)) / (fga : ℚ)))

/-- Shooting-relevant season totals of one player, a projection of the
player_totals accumulator of PlayerStatsProcessor. -/
structure ShootTotals where
  pts : Int
  fg : Int
  fga : Int
  fg3 : Int
  fg3a : Int
  ft : Int
  fta : Int
deriving DecidableEq, Repr

/-- Zero totals, the defaultdict initial state. -/
def zeroShoot : ShootTotals := ⟨0, 0, 0, 0, 0, 0, 0⟩

/-- Per-row accumulation of _aggregate_player_stats on the shooting stats:
field-wise addition of the coerced row values into the season totals. -/
def addShoot (t r : ShootTotals) : ShootTotals :=
  ⟨t.pts + r.pts, t.fg + r.fg, t.fga + r.fga, t.fg3 + r.fg3,
   t.fg3a + r.fg3a, t.ft + r.ft, t.fta + r.fta⟩

/-- Season totals of a list of player-game rows for one identity key. -/
def aggShoot (rows : List ShootTotals) : ShootTotals :=
  rows.foldl addShoot zeroShoot

/-- Field goal percentage field of _create_players_dataframe: makes over
attempts rounded to three decimals, zero unless attempts are positive. -/
def fgPctOut (t : ShootTotals) : ℚ :=
  if t.fga > 0 then round3 ((t.fg : ℚ) / (t.fga : ℚ)) else 0

/-- True shooting output field: the helper value with none collapsed to
zero by the or-default in the source. -/
def tsPctOut (t : ShootTotals) : ℚ :=
  (calculate_true_shooting t.pts t.fga t.fta).getD 0

/-- Effective field goal output field: the helper value with none
collapsed to zero by the or-default in the source. -/
def efgPctOut (t : ShootTotals) : ℚ :=
  (calculate_effective_fg_pct t.fg t.fg3 t.fga).getD 0

/-- Numeric branch of helpers.parse_minutes: a numeric minutes value is
returned unchanged (the string branches of the source parser are not
needed by any claim). -/
def parse_minutes (q : ℚ) : ℚ := q

/-- Fragment of one player-game row needed by the games, minutes and wins
accumulation of _aggregate_player_stats: the player name, the minutes
value, the coerced points, and the final scores of the row team and of the
opponent from which the win flag is computed. -/
structure AggRow where
  name : String
  mp : ℚ
  pts : Int
  team_score : Int
  opp_score : Int
deriving DecidableEq, Repr

/-- Games, minutes and wins counters of the player_totals accumulator. -/
structure GamesTotals where
  games : Int
  minutes : ℚ
  wins : Int
deriving DecidableEq, Repr

/-- Per-row update of the games, minutes and wins counters in
_aggregate_player_stats: rows with an empty name are skipped; games and
minutes are incremented only under the games-played guard (positive parsed
minutes or positive points); the win counter is incremented for every row
whose side outscored the opponent, independent of that guard. -/
def aggRowStep (t : GamesTotals) (r : AggRow) : GamesTotals :=
  if r.name = "" then t
  else
    let minutes := parse_minutes r.mp
    let t1 :=
      if minutes > 0 ∨ r.pts > 0 then
        { t with games := t.games + 1, minutes := t.minutes + minutes }
      else t
    if r.team_score > r.opp_score then { t1 with wins := t1.wins + 1 } else t1

/-- Games, minutes and wins totals over a row list for one identity key. -/
def aggGames (rows : List AggRow) : GamesTotals :=
  rows.foldl aggRowStep ⟨0, 0, 0⟩

/-- Concrete skipped play for the C2 witness: scoring flag set, no player
attribution. -/
def c2SkipPlay : Play := ⟨true, 3, 0, Side.away, "A", "", 0, 1, "10:00", "", ""⟩

/-- Concrete qualifying play for the C2 witness. -/
def c2SamePlay : Play := ⟨true, 6, 0, Side.away, "A", "p1", 3, 1, "9:00", "made", ""⟩

/-- Concrete closing play for the C2 witness. -/
def c2OtherPlay : Play := ⟨true, 3, 2, Side.home, "B", "q1", 2, 1, "9:30", "made", ""⟩

/-- Concrete streak state for the C2 witness: an open 7-point streak by
player p1 with previous scores 3-0. -/
def c2State : StreakPass :=
  ⟨[], ⟨"p1", "A", Side.away, 7, "11:00", "10:30", 1, 1, "0-0", "3-0"⟩, 3, 0⟩

/-- Concrete inconsistent play for the C3 witness: declared away side with
an away delta of zero. -/
def c3Play : Play := ⟨true, 5, 2, Side.away, "A", "p1", 2, 2, "8:00", "made", ""⟩

/-- Concrete run state for the C3 witness: an open 9-point away run with
previous scores 5-0. -/
def c3State : RunPass :=
  ⟨[], ⟨"A", Side.away, 9, "11:00", "9:00", 1, 1, "0-0", "5-0"⟩, 5, 0⟩

/-- Concrete engine for the C4 witness: the home side led 0-5 before the
away side, the authoritative 7-5 winner, came back. -/
def c4Engine : Engine :=
  ⟨[⟨true, 0, 5, Side.home, "B", "q", 5, 1, "11:00", "made", ""⟩,
    ⟨true, 7, 5, Side.away, "A", "p", 7, 2, "10:00", "made", ""⟩],
   "A", "B", 7, 5, 7, 5⟩

/-- Engine with an empty play list used as the concrete input of the C1
counterexample and witness. -/
def emptyEngine : Engine := ⟨[], "", "", 0, 0, 0, 0⟩


section Claims

/-- C1 counterexample: with an empty plays list, analyze returns the
literal empty dictionary (modelled as none), not a bundle containing the
five sub-results in empty form, refuting the claimed result shape at the
concrete empty-engine input. -/
theorem c1_empty_returns_bare_dict : analyze emptyEngine = none := rfl

/-- C1 (amended): for every engine with an empty plays list, analyze
returns without raising, but its value is the empty dictionary carrying no
sub-results; each of the five sub-analyses, called directly, does return
its empty or zeroed form. -/
theorem c1_empty_analyze (e : Engine) (h : e.plays = []) :
    analyze e = none ∧
    analyze_team_scoring_runs e 8 = [] ∧
    analyze_player_point_streaks e 6 = [] ∧
    analyze_biggest_comeback e = none ∧
    analyze_clutch_scoring e 5 = ⟨[], []⟩ ∧
    analyze_game_winning_shots e = ⟨none, none⟩ := by
  refine ⟨?_, ?_, ?_, ?_, ?_, ?_⟩ <;>
    simp [analyze, analyze_team_scoring_runs, analyze_player_point_streaks,
          analyze_biggest_comeback, analyze_clutch_scoring,
          analyze_game_winning_shots, h]

/-- C1 witness at the concrete empty engine. -/
theorem c1_empty_analyze_witness :
    analyze emptyEngine = none ∧
    analyze_team_scoring_runs emptyEngine 8 = [] ∧
    analyze_player_point_streaks emptyEngine 6 = [] ∧
    analyze_biggest_comeback emptyEngine = none ∧
    analyze_clutch_scoring emptyEngine 5 = ⟨[], []⟩ ∧
    analyze_game_winning_shots emptyEngine = ⟨none, none⟩ :=
  c1_empty_analyze emptyEngine rfl

/-- C2: in the player point streak pass at threshold 6, a scoring play
with an empty player or a non-positive effective value only advances the
previous-score tracker, leaving the open streak and the emitted list
untouched; a qualifying play by the streak player extends the open streak;
a positive-scoring play by a different player closes the open streak,
emitting it exactly when it reached 6 points, and opens a new streak for
that player; and after a skipped play the same open streak is still
extended by a later qualifying play of its player. -/
theorem c2_streak_rules (st : StreakPass) :
    (∀ p : Play, p.scoring_play = true → p.player = "" ∨ effPoints st p ≤ 0 →
      (streakStep 6 st p).cur = st.cur ∧
      (streakStep 6 st p).streaks = st.streaks ∧
      (streakStep 6 st p).prevAway = p.away_score ∧
      (streakStep 6 st p).prevHome = p.home_score) ∧
    (∀ q : Play, q.scoring_play = true → q.player ≠ "" → 0 < effPoints st q →
      q.player = st.cur.player →
      (streakStep 6 st q).cur.player = st.cur.player ∧
      (streakStep 6 st q).cur.points = st.cur.points + effPoints st q ∧
      (streakStep 6 st q).streaks = st.streaks) ∧
    (∀ r : Play, r.scoring_play = true → r.player ≠ "" → 0 < effPoints st r →
      r.player ≠ st.cur.player →
      (streakStep 6 st r).streaks =
        st.streaks ++ (if st.cur.player ≠ "" ∧ st.cur.points ≥ 6 then [st.cur] else []) ∧
      (streakStep 6 st r).cur.player = r.player ∧
      (streakStep 6 st r).cur.points = effPoints st r) ∧
    (∀ p q : Play, p.scoring_play = true → p.player = "" ∨ effPoints st p ≤ 0 →
      q.scoring_play = true → q.player ≠ "" →
      0 < effPoints (streakStep 6 st p) q → q.player = st.cur.player →
      (streakStep 6 (streakStep 6 st p) q).cur.player = st.cur.player ∧
      (streakStep 6 (streakStep 6 st p) q).cur.points =
        st.cur.points + effPoints (streakStep 6 st p) q ∧
      (streakStep 6 (streakStep 6 st p) q).streaks = st.streaks) := by
  have skip : ∀ (s : StreakPass) (p : Play), p.scoring_play = true →
      p.player = "" ∨ effPoints s p ≤ 0 →
      streakStep 6 s p = { s with prevAway := p.away_score, prevHome := p.home_score } := by
    intro s p hs hsk
    simp [streakStep, hs, hsk]
  have ext : ∀ (s : StreakPass) (q : Play), q.scoring_play = true → q.player ≠ "" →
      0 < effPoints s q → q.player = s.cur.player →
      (streakStep 6 s q).cur.player = s.cur.player ∧
      (streakStep 6 s q).cur.points = s.cur.points + effPoints s q ∧
      (streakStep 6 s q).streaks = s.streaks := by
    intro s q hs hne hpos heq
    have hcond : ¬(q.player = "" ∨ effPoints s q ≤ 0) := by
      push_neg
      exact ⟨hne, hpos⟩
    simp [streakStep, hs, hcond, heq.symm]
  refine ⟨?_, ?_, ?_, ?_⟩
  · intro p hs hsk
    rw [skip st p hs hsk]
    exact ⟨rfl, rfl, rfl, rfl⟩
  · intro q hs hne hpos heq
    exact ext st q hs hne hpos heq
  · intro r hs hne hpos hneq
    have hcond : ¬(r.player = "" ∨ effPoints st r ≤ 0) := by
      push_neg
      exact ⟨hne, hpos⟩
    have hcur : ¬(st.cur.player = r.player) := fun h => hneq h.symm
    simp [streakStep, hs, hcond, hcur]
  · intro p q hsp hskp hsq hne hpos heq
    have h1 := skip st p hsp hskp
    have h2 := ext (streakStep 6 st p) q hsq hne hpos (by rw [h1]; exact heq)
    rw [h1] at h2 ⊢
    exact h2

/-- C2 witness: the four parts of the streak rule applied at concrete
plays and a concrete open-streak state. -/
theorem c2_streak_rules_witness :
    ((streakStep 6 c2State c2SkipPlay).cur = c2State.cur ∧
      (streakStep 6 c2State c2SkipPlay).streaks = c2State.streaks ∧
      (streakStep 6 c2State c2SkipPlay).prevAway = c2SkipPlay.away_score ∧
      (streakStep 6 c2State c2SkipPlay).prevHome = c2SkipPlay.home_score) ∧
    ((streakStep 6 c2State c2SamePlay).cur.player = c2State.cur.player ∧
      (streakStep 6 c2State c2SamePlay).cur.points =
        c2State.cur.points + effPoints c2State c2SamePlay ∧
      (streakStep 6 c2State c2SamePlay).streaks = c2State.streaks) ∧
    ((streakStep 6 c2State c2OtherPlay).streaks =
        c2State.streaks ++
          (if c2State.cur.player ≠ "" ∧ c2State.cur.points ≥ 6 then [c2State.cur] else []) ∧
      (streakStep 6 c2State c2OtherPlay).cur.player = c2OtherPlay.player ∧
      (streakStep 6 c2State c2OtherPlay).cur.points = effPoints c2State c2OtherPlay) ∧
    ((streakStep 6 (streakStep 6 c2State c2SkipPlay) c2SamePlay).cur.player =
        c2State.cur.player ∧
      (streakStep 6 (streakStep 6 c2State c2SkipPlay) c2SamePlay).cur.points =
        c2State.cur.points + effPoints (streakStep 6 c2State c2SkipPlay) c2SamePlay ∧
      (streakStep 6 (streakStep 6 c2State c2SkipPlay) c2SamePlay).streaks =
        c2State.streaks) :=
  ⟨(c2_streak_rules c2State).1 c2SkipPlay rfl (Or.inl rfl),
   (c2_streak_rules c2State).2.1 c2SamePlay rfl (by decide) (by decide) rfl,
   (c2_streak_rules c2State).2.2.1 c2OtherPlay rfl (by decide) (by decide) (by decide),
   (c2_streak_rules c2State).2.2.2 c2SkipPlay c2SamePlay rfl (Or.inl rfl) rfl
     (by decide) (by decide) rfl⟩

/-- C3: in the team scoring run pass at threshold 8, a scoring play whose
declared side has a non-positive cumulative-score delta does not fail: the
open run is flushed (appended exactly when open and at 8 points or more),
the tracker is reset to no open run, and the previous-score tracker
advances to the play scores. -/
theorem c3_run_break (st : RunPass) (p : Play)
    (hs : p.scoring_play = true)
    (hd : (p.team_side = Side.away ∧ p.away_score - st.prevAway ≤ 0) ∨
          (p.team_side = Side.home ∧ p.home_score - st.prevHome ≤ 0)) :
    teamRunStep 8 st p =
      { runs := st.runs ++ (if st.cur.team ≠ "" ∧ st.cur.points ≥ 8 then [st.cur] else []),
        cur := emptyRun, prevAway := p.away_score, prevHome := p.home_score } := by
  rcases hd with ⟨hside, hle⟩ | ⟨hside, hle⟩
  · have h1 : ¬(p.team_side = Side.away ∧ st.prevAway < p.away_score) := by
      rintro ⟨-, h⟩
      omega
    have h2 : ¬(p.team_side = Side.home ∧ st.prevHome < p.home_score) := by
      rintro ⟨h, -⟩
      rw [hside] at h
      exact Side.noConfusion h
    simp [teamRunStep, hs, h1, h2]
  · have h1 : ¬(p.team_side = Side.away ∧ st.prevAway < p.away_score) := by
      rintro ⟨h, -⟩
      rw [hside] at h
      exact Side.noConfusion h
    have h2 : ¬(p.team_side = Side.home ∧ st.prevHome < p.home_score) := by
      rintro ⟨-, h⟩
      omega
    simp [teamRunStep, hs, h1, h2]

/-- C3 witness: the break rule applied at the concrete inconsistent play;
the sub-threshold check appends the open 9-point run and resets. -/
theorem c3_run_break_witness :
    teamRunStep 8 c3State c3Play =
      { runs := c3State.runs ++
          (if c3State.cur.team ≠ "" ∧ c3State.cur.points ≥ 8 then [c3State.cur] else []),
        cur := emptyRun, prevAway := c3Play.away_score, prevHome := c3Play.home_score } :=
  c3_run_break c3State c3Play rfl (Or.inl ⟨rfl, by decide⟩)

/-- The running maximum of the comeback pass equals the left fold of max
over the per-play deficits. -/
theorem comeback_fold_max (e : Engine) (l : List Play) (st : ComebackPass) :
    (l.foldl (comebackStep e) st).maxDef = (l.map (playDeficit e)).foldl max st.maxDef := by
  induction l generalizing st with
  | nil => rfl
  | cons p t ih =>
    rw [List.foldl_cons, List.map_cons, List.foldl_cons, ih]
    congr 1
    by_cases h : playDeficit e p > st.maxDef
    · simp [comebackStep, if_pos h, max_eq_right h.le]
    · push_neg at h
      simp [comebackStep, not_lt.mpr h, max_eq_left h]

/-- C4: for a non-empty play list and nonnegative authoritative scores,
the winner side is resolved from the authoritative scores whenever either
is nonzero and from the play-by-play final scores only on an authoritative
0-0; the emitted deficit is the maximum over all plays of the clamped
margin in favor of the winner opponent; and when that maximum is zero the
record is the never-trailed one with empty deficit fields and the final
score. -/
theorem c4_biggest_comeback (e : Engine)
    (hne : e.plays ≠ [])
    (ha : 0 ≤ e.actual_away) (hh : 0 ≤ e.actual_home) :
    ((e.actual_away ≠ 0 ∨ e.actual_home ≠ 0) →
      winnerSide e = (if e.actual_away < e.actual_home then Side.home else Side.away)) ∧
    (e.actual_away = 0 ∧ e.actual_home = 0 →
      winnerSide e = (if e.final_away < e.final_home then Side.home else Side.away)) ∧
    ∃ r, analyze_biggest_comeback e = some r ∧
      r.deficit = (e.plays.map (playDeficit e)).foldl max 0 ∧
      (r.never_trailed = true ↔ (e.plays.map (playDeficit e)).foldl max 0 = 0) ∧
      ((e.plays.map (playDeficit e)).foldl max 0 = 0 →
        r = ⟨winnerTeam e, winnerSide e, 0, "", 0, "", true, true,
             formatScore e.final_away e.final_home⟩) := by
  have hfold := comeback_fold_max e e.plays ⟨0, "", 0, ""⟩
  refine ⟨?_, ?_, ?_⟩
  · intro h
    have hpos : e.actual_away > 0 ∨ e.actual_home > 0 := by
      rcases h with h | h
      · exact Or.inl (lt_of_le_of_ne ha (Ne.symm h))
      · exact Or.inr (lt_of_le_of_ne hh (Ne.symm h))
    simp only [winnerSide, if_pos hpos]
  · rintro ⟨h1, h2⟩
    have hneg : ¬(e.actual_away > 0 ∨ e.actual_home > 0) := by
      rw [h1, h2]
      simp
    simp only [winnerSide, if_neg hneg]
  · simp only [analyze_biggest_comeback, if_neg hne]
    by_cases h : (e.plays.foldl (comebackStep e) ⟨0, "", 0, ""⟩).maxDef = 0
    · rw [if_pos h]
      rw [hfold] at h
      exact ⟨_, rfl, by simp [h], by simp [h], fun _ => rfl⟩
    · rw [if_neg h]
      rw [hfold] at h
      exact ⟨_, rfl, hfold, by simp [h], fun hz => absurd hz h⟩

/-- C4 witness: the comeback characterization applied at the concrete
two-play engine, where the maximum opponent-favor margin is 5. -/
theorem c4_biggest_comeback_witness :
    ((c4Engine.actual_away ≠ 0 ∨ c4Engine.actual_home ≠ 0) →
      winnerSide c4Engine =
        (if c4Engine.actual_away < c4Engine.actual_home then Side.home else Side.away)) ∧
    (c4Engine.actual_away = 0 ∧ c4Engine.actual_home = 0 →
      winnerSide c4Engine =
        (if c4Engine.final_away < c4Engine.final_home then Side.home else Side.away)) ∧
    ∃ r, analyze_biggest_comeback c4Engine = some r ∧
      r.deficit = (c4Engine.plays.map (playDeficit c4Engine)).foldl max 0 ∧
      (r.never_trailed = true ↔
        (c4Engine.plays.map (playDeficit c4Engine)).foldl max 0 = 0) ∧
      ((c4Engine.plays.map (playDeficit c4Engine)).foldl max 0 = 0 →
        r = ⟨winnerTeam c4Engine, winnerSide c4Engine, 0, "", 0, "", true, true,
             formatScore c4Engine.final_away c4Engine.final_home⟩) :=
  c4_biggest_comeback c4Engine (by decide) (by decide) (by decide)

/-- C5: a play passes the clutch guard chain at the default 5-minute
window exactly when its period is 4, its clock parses and is strictly
under 5 minutes, it is a scoring play, and player, side and point value
are all present and nonzero; concretely a 2:30 clock in period 4 is
included, 5:01 is excluded, and an unparseable clock yields no parse at
all (so the play is excluded rather than treated as zero time). -/
theorem c5_clutch_filter :
    (∀ p : Play, clutchContributes 5 p = true ↔
      (p.period = 4 ∧
       (∃ m : ℚ, parse_time_minutes p.time = some m ∧ m < 5) ∧
       p.scoring_play = true ∧ p.player ≠ "" ∧ p.team_side ≠ Side.blank ∧
       p.score_value ≠ 0)) ∧
    clutchContributes 5 ⟨true, 1, 0, Side.away, "A", "p", 2, 4, "2:30", "made", ""⟩ = true ∧
    clutchContributes 5 ⟨true, 3, 0, Side.away, "A", "p", 2, 4, "5:01", "made", ""⟩ = false ∧
    clutchContributes 5 ⟨true, 5, 0, Side.away, "A", "p", 2, 4, "garbage", "made", ""⟩ = false ∧
    parse_time_minutes "2:30" = some (5 / 2) ∧
    parse_time_minutes "5:01" = some (301 / 60) ∧
    parse_time_minutes "garbage" = none := by
  have ht1 : parse_time_minutes "2:30" = some (5 / 2) := by
    unfold parse_time_minutes
    rw [show parseClock "2:30" = some (2, 30) from rfl]
    simp
    norm_num
  have ht2 : parse_time_minutes "5:01" = some (301 / 60) := by
    unfold parse_time_minutes
    rw [show parseClock "5:01" = some (5, 1) from rfl]
    simp
    norm_num
  have ht3 : parse_time_minutes "garbage" = none := rfl
  refine ⟨?_, ?_, ?_, ?_, ht1, ht2, ht3⟩
  case refine_2 =>
    simp [clutchContributes, ht1, show ¬((5:ℚ)/2 ≥ 5) by norm_num]
  case refine_3 =>
    simp [clutchContributes, ht2, show ((301:ℚ)/60 ≥ 5) by norm_num]
  case refine_4 =>
    simp [clutchContributes, ht3]
  intro p
  unfold clutchContributes
  rcases hm : parse_time_minutes p.time with _ | m
  · by_cases h4 : p.period ≠ 4 <;> simp [h4, hm]
  · by_cases h4 : p.period ≠ 4
    · simp [h4, hm]
    · push_neg at h4
      by_cases h5 : m ≥ 5
      · have hnl : ¬(m < 5) := not_lt.mpr h5
        simp [h4, hm, h5, hnl]
      · push_neg at h5
        cases hsc : p.scoring_play
        · simp [h4, hm, not_le.mpr h5, hsc]
        · by_cases hsk : p.player = "" ∨ p.team_side = Side.blank ∨ p.score_value = 0
          · simp [h4, hm, not_le.mpr h5, hsc, h5]
          · push_neg at hsk
            simp [h4, hm, not_le.mpr h5, hsc, hsk.1, hsk.2.1, hsk.2.2, h5]

/-- The winner side resolved by the engine is never the blank side. -/
theorem winnerSide_ne_blank (e : Engine) : winnerSide e ≠ Side.blank := by
  unfold winnerSide
  split_ifs <;> simp

/-- On scoring plays, the source go-ahead test agrees with the
specification candidate test. -/
theorem isGoAhead_eq_spec (e : Engine) (pa ph : Int) (p : Play)
    (hs : p.scoring_play = true) :
    isGoAhead e pa ph p = specGoAhead e pa ph p := by
  cases hside : p.team_side
  · by_cases hw : winnerSide e = Side.away
    · simp [isGoAhead, specGoAhead, favorableFor, hs, hside, hw, ← decide_not,
            decide_eq_decide]
    · simp [isGoAhead, specGoAhead, favorableFor, hs, hside, hw, Ne.symm hw]
  · by_cases hw : winnerSide e = Side.home
    · simp [isGoAhead, specGoAhead, favorableFor, hs, hside, hw, ← decide_not,
            decide_eq_decide]
    · simp [isGoAhead, specGoAhead, favorableFor, hs, hside, hw, Ne.symm hw]
  · have hw := winnerSide_ne_blank e
    simp [isGoAhead, specGoAhead, favorableFor, hs, hside, Ne.symm hw]

/-- Appending lemma for the last collected shot. -/
theorem lastShot_cons (p : Play) (ps : List Play) (d : Option Shot) :
    lastShot (p :: ps) d = lastShot ps (some (shotInfo p)) := by
  cases ps with
  | nil => rfl
  | cons q qs =>
    cases h : (q :: qs).getLast? with
    | none => simp at h
    | some r => simp [lastShot, List.getLast?_cons_cons, h]

/-- The game-winning-shot fold computes, from any starting state, the shot
record of the last specification candidate (falling back to the incoming
record), both unrestricted and restricted to the clutch window. -/
theorem gws_fold_last (e : Engine) (l : List Play) (st : GwsPass) :
    (l.foldl (gwsStep e) st).lastGA =
      lastShot (goAheadCands e st.prevAway st.prevHome l) st.lastGA ∧
    (l.foldl (gwsStep e) st).clutchGA =
      lastShot ((goAheadCands e st.prevAway st.prevHome l).filter gwsWindow) st.clutchGA := by
  induction l generalizing st with
  | nil => exact ⟨rfl, rfl⟩
  | cons p t ih =>
    rw [List.foldl_cons]
    cases hsc : p.scoring_play
    · have hspec : specGoAhead e st.prevAway st.prevHome p = false := by
        simp [specGoAhead, hsc]
      have hstep : gwsStep e st p =
          { st with prevAway := p.away_score, prevHome := p.home_score } := by
        simp [gwsStep, hsc]
      rw [hstep]
      have := ih { st with prevAway := p.away_score, prevHome := p.home_score }
      simpa [goAheadCands, hspec] using this
    · cases hga : isGoAhead e st.prevAway st.prevHome p
      · have hspec : specGoAhead e st.prevAway st.prevHome p = false := by
          rw [← isGoAhead_eq_spec e _ _ p hsc]
          exact hga
        have hstep : gwsStep e st p =
            { st with prevAway := p.away_score, prevHome := p.home_score } := by
          simp [gwsStep, hsc, hga]
        rw [hstep]
        have := ih { st with prevAway := p.away_score, prevHome := p.home_score }
        simpa [goAheadCands, hspec] using this
      · have hspec : specGoAhead e st.prevAway st.prevHome p = true := by
          rw [← isGoAhead_eq_spec e _ _ p hsc]
          exact hga
        have hstep : gwsStep e st p =
            { prevAway := p.away_score, prevHome := p.home_score,
              lastGA := some (shotInfo p),
              clutchGA := if gwsWindow p then some (shotInfo p) else st.clutchGA } := by
          simp [gwsStep, hsc, hga]
        rw [hstep]
        have hih := ih { prevAway := p.away_score, prevHome := p.home_score,
                         lastGA := some (shotInfo p),
                         clutchGA := if gwsWindow p then some (shotInfo p) else st.clutchGA }
        have hcands : goAheadCands e st.prevAway st.prevHome (p :: t) =
            p :: goAheadCands e p.away_score p.home_score t := by
          simp [goAheadCands, hspec]
        rw [hcands]
        constructor
        · rw [lastShot_cons]
          exact hih.1
        · cases hw : gwsWindow p
          · rw [List.filter_cons_of_neg (by simp [hw])]
            have := hih.2
            rw [hw] at this
            simpa using this
          · rw [List.filter_cons_of_pos (by simp [hw]), lastShot_cons]
            have := hih.2
            rw [hw] at this
            simpa using this

/-- C6: the decisive shot reported by the game-winning-shot analysis is
the shot record of the last specification go-ahead candidate of the whole
game (a scoring play by the eventual winner side flipping the margin from
non-favorable to strictly favorable), and the clutch go-ahead is the shot
record of the last such candidate inside the period-4 under-2-minutes
window, absent when no candidate lies in the window. -/
theorem c6_game_winning_shots (e : Engine) :
    (analyze_game_winning_shots e).decisive_shot =
      ((goAheadCands e 0 0 e.plays).getLast?).map shotInfo ∧
    (analyze_game_winning_shots e).clutch_go_ahead =
      (((goAheadCands e 0 0 e.plays).filter gwsWindow).getLast?).map shotInfo := by
  have hbridge : ∀ (ps : List Play), lastShot ps none = (ps.getLast?).map shotInfo := by
    intro ps
    unfold lastShot
    cases ps.getLast? <;> rfl
  by_cases hne : e.plays = []
  · simp [analyze_game_winning_shots, hne, goAheadCands]
  · have h := gws_fold_last e e.plays ⟨0, 0, none, none⟩
    simp only [analyze_game_winning_shots, if_neg hne]
    exact ⟨by rw [h.1, hbridge], by rw [h.2, hbridge]⟩

/-- The shooting-total fold is field-wise summation. -/
theorem aggShoot_fold (rows : List ShootTotals) (t : ShootTotals) :
    rows.foldl addShoot t =
      ⟨t.pts + (rows.map ShootTotals.pts).sum,
       t.fg + (rows.map ShootTotals.fg).sum,
       t.fga + (rows.map ShootTotals.fga).sum,
       t.fg3 + (rows.map ShootTotals.fg3).sum,
       t.fg3a + (rows.map ShootTotals.fg3a).sum,
       t.ft + (rows.map ShootTotals.ft).sum,
       t.fta + (rows.map ShootTotals.fta).sum⟩ := by
  induction rows generalizing t with
  | nil => simp
  | cons r rs ih =>
    rw [List.foldl_cons, ih]
    simp [addShoot, add_assoc]

/-- C7: the shooting efficiency output fields are computed from the summed
season totals of the row list: field-goal percentage is total makes over
total attempts (zero without positive attempts), true shooting is total
points over twice (attempts plus 0.44 free-throw attempts), effective
field-goal percentage is (makes plus half the threes) over attempts, each
rounded to three decimals; and on the concrete two-game 10-of-20 plus
0-of-10 corpus the aggregate percentage is 0.333, not the 0.25 mean of the
two per-game percentages 0.5 and 0. -/
theorem c7_shooting_from_totals (rows : List ShootTotals) :
    (aggShoot rows).fg = (rows.map ShootTotals.fg).sum ∧
    (aggShoot rows).fga = (rows.map ShootTotals.fga).sum ∧
    fgPctOut (aggShoot rows) =
      (if 0 < (rows.map ShootTotals.fga).sum then
        round3 (((rows.map ShootTotals.fg).sum : ℚ) / ((rows.map ShootTotals.fga).sum : ℚ))
       else 0) ∧
    tsPctOut (aggShoot rows) =
      (if 2 * (((rows.map ShootTotals.fga).sum : ℚ) +
               44 / 100 * ((rows.map ShootTotals.fta).sum : ℚ)) = 0 then 0
       else round3 (((rows.map ShootTotals.pts).sum : ℚ) /
        (2 * (((rows.map ShootTotals.fga).sum : ℚ) +
              44 / 100 * ((rows.map ShootTotals.fta).sum : ℚ))))) ∧
    efgPctOut (aggShoot rows) =
      (if (rows.map ShootTotals.fga).sum = 0 then 0
       else round3 ((((rows.map ShootTotals.fg).sum : ℚ) +
                     1 / 2 * ((rows.map ShootTotals.fg3).sum : ℚ)) /
                    ((rows.map ShootTotals.fga).sum : ℚ))) ∧
    fgPctOut (aggShoot [⟨0, 10, 20, 0, 0, 0, 0⟩, ⟨0, 0, 10, 0, 0, 0, 0⟩]) = 333 / 1000 ∧
    fgPctOut (aggShoot [⟨0, 10, 20, 0, 0, 0, 0⟩]) = 1 / 2 ∧
    fgPctOut (aggShoot [⟨0, 0, 10, 0, 0, 0, 0⟩]) = 0 ∧
    fgPctOut (aggShoot [⟨0, 10, 20, 0, 0, 0, 0⟩, ⟨0, 0, 10, 0, 0, 0, 0⟩]) ≠
      (fgPctOut (aggShoot [⟨0, 10, 20, 0, 0, 0, 0⟩]) +
       fgPctOut (aggShoot [⟨0, 0, 10, 0, 0, 0, 0⟩])) / 2 := by
  have hagg : aggShoot rows =
      ⟨(rows.map ShootTotals.pts).sum, (rows.map ShootTotals.fg).sum,
       (rows.map ShootTotals.fga).sum, (rows.map ShootTotals.fg3).sum,
       (rows.map ShootTotals.fg3a).sum, (rows.map ShootTotals.ft).sum,
       (rows.map ShootTotals.fta).sum⟩ := by
    unfold aggShoot
    rw [aggShoot_fold rows zeroShoot]
    simp [zeroShoot]
  refine ⟨by rw [hagg], by rw [hagg], ?_, ?_, ?_, ?_, ?_, ?_, ?_⟩
  · rw [hagg]
    rfl
  · rw [hagg]
    simp only [tsPctOut, calculate_true_shooting]
    split_ifs <;> simp
  · rw [hagg]
    unfold efgPctOut calculate_effective_fg_pct
    by_cases h : (rows.map ShootTotals.fga).sum = 0
    · have hq : ((rows.map ShootTotals.fga).sum : ℚ) = 0 := by
        exact_mod_cast congrArg (fun z : Int => (z : ℚ)) h
      simp [h, hq]
    · simp [h]
  · norm_num [fgPctOut, aggShoot, addShoot, zeroShoot, round3, round_eq]
  · norm_num [fgPctOut, aggShoot, addShoot, zeroShoot, round3, round_eq]
  · norm_num [fgPctOut, aggShoot, addShoot, zeroShoot, round3, round_eq]
  · norm_num [fgPctOut, aggShoot, addShoot, zeroShoot, round3, round_eq]

/-- C8: the aggregator milestone classification marks a row a
triple-double exactly when at least 3 of the five categories reach the
threshold 10 and a double-double exactly when exactly 2 do (the
double-double branch runs only on triple-double failure), the two
classifications are mutually exclusive, and the concrete row 10-10-10-0-0
is a triple-double and not a double-double. -/
theorem c8_milestones (s : StatLine) :
    (classifyMilestone s = Milestone.triple ↔ 3 ≤ milestoneCount 10 s) ∧
    (classifyMilestone s = Milestone.double ↔ milestoneCount 10 s = 2) ∧
    ¬(classifyMilestone s = Milestone.triple ∧ classifyMilestone s = Milestone.double) ∧
    classifyMilestone ⟨10, 10, 10, 0, 0⟩ = Milestone.triple ∧
    classifyMilestone ⟨10, 10, 10, 0, 0⟩ ≠ Milestone.double := by
  have h3 : is_triple_double s = true ↔ 3 ≤ milestoneCount 10 s := by
    simp [is_triple_double]
  have h2 : is_double_double s = true ↔ 2 ≤ milestoneCount 10 s := by
    simp [is_double_double]
  refine ⟨?_, ?_, ?_, by decide, by decide⟩
  · by_cases ht : is_triple_double s = true
    · simp [classifyMilestone, ht, h3.mp ht]
    · have hnc : ¬ 3 ≤ milestoneCount 10 s := fun hc => ht (h3.mpr hc)
      by_cases hd : is_double_double s = true <;>
        simp [classifyMilestone, ht, hd, hnc]
  · by_cases ht : is_triple_double s = true
    · have h3c := h3.mp ht
      simp only [classifyMilestone, ht, if_true]
      constructor
      · intro h
        exact Milestone.noConfusion h
      · intro h
        omega
    · have hnc : ¬ 3 ≤ milestoneCount 10 s := fun hc => ht (h3.mpr hc)
      by_cases hd : is_double_double s = true
      · have h2c := h2.mp hd
        simp [classifyMilestone, ht, hd]
        omega
      · have hn2 : ¬ 2 ≤ milestoneCount 10 s := fun hc => hd (h2.mpr hc)
        simp [classifyMilestone, ht, hd]
        omega
  · rintro ⟨ha, hb⟩
    rw [ha] at hb
    exact Milestone.noConfusion hb

/-- C9 counterexample: the normalization removes only period characters,
not punctuation in general, so two raw names for the same person that
differ only by a comma fall under two different identity keys. -/
theorem c9_punctuation_counterexample :
    aggKey "" "Ray, Allen" ≠ aggKey "" "Ray Allen" := by decide

/-- C9 (amended): the identity key is the upstream player identifier when
it is non-empty and otherwise the normalized name, where normalization
strips one trailing Jr/Sr/II-IV suffix, removes period characters (not all
punctuation), folds case and collapses whitespace, so names differing only
in such a suffix, in periods, in case or in spacing share one key. -/
theorem c9_identity_key (pid n : String) (hp : pid ≠ "") :
    aggKey pid n = pid ∧
    aggKey "" n = normalize_name n ∧
    aggKey "" "Tim Hardaway Jr." = aggKey "" "tim hardaway" ∧
    aggKey "" "T.J. Warren" = aggKey "" "TJ Warren" ∧
    aggKey "" "  LeBron   James " = aggKey "" "LeBron James" ∧
    aggKey "" "Marvin Bagley III" = aggKey "" "marvin bagley" ∧
    aggKey "" "Gary Payton II" = aggKey "" "GARY PAYTON" :=
  ⟨by simp [aggKey, hp], by simp [aggKey], by decide, by decide, by decide,
   by decide, by decide⟩

/-- C9 witness at a concrete non-empty identifier. -/
theorem c9_identity_key_witness :
    aggKey "hardati01" "Tim Hardaway Jr." = "hardati01" ∧
    aggKey "" "Tim Hardaway Jr." = normalize_name "Tim Hardaway Jr." ∧
    aggKey "" "Tim Hardaway Jr." = aggKey "" "tim hardaway" ∧
    aggKey "" "T.J. Warren" = aggKey "" "TJ Warren" ∧
    aggKey "" "  LeBron   James " = aggKey "" "LeBron James" ∧
    aggKey "" "Marvin Bagley III" = aggKey "" "marvin bagley" ∧
    aggKey "" "Gary Payton II" = aggKey "" "GARY PAYTON" :=
  c9_identity_key "hardati01" "Tim Hardaway Jr." (by decide)

/-- C10: a row with a non-empty name on the winning side whose parsed
minutes and points are both non-positive increments only the win counter,
leaving games and minutes untouched; consequently, on a concrete two-game
corpus with one played win and one did-not-play win, the season wins total
exceeds the games total. -/
theorem c10_wins_without_games (t : GamesTotals) (r : AggRow)
    (hn : r.name ≠ "") (hw : r.team_score > r.opp_score)
    (hm : parse_minutes r.mp ≤ 0) (hp : r.pts ≤ 0) :
    aggRowStep t r = { t with wins := t.wins + 1 } ∧
    (aggGames [⟨"p", 30, 10, 100, 90⟩, ⟨"p", 0, 0, 100, 90⟩]).wins = 2 ∧
    (aggGames [⟨"p", 30, 10, 100, 90⟩, ⟨"p", 0, 0, 100, 90⟩]).games = 1 ∧
    (aggGames [⟨"p", 30, 10, 100, 90⟩, ⟨"p", 0, 0, 100, 90⟩]).games <
      (aggGames [⟨"p", 30, 10, 100, 90⟩, ⟨"p", 0, 0, 100, 90⟩]).wins := by
  have hg : ¬(parse_minutes r.mp > 0 ∨ r.pts > 0) := by
    push_neg
    exact ⟨hm, hp⟩
  exact ⟨by simp [aggRowStep, hn, hg, hw], by decide, by decide, by decide⟩

/-- C10 witness: a did-not-play winning row applied to concrete totals. -/
theorem c10_wins_without_games_witness :
    aggRowStep ⟨5, 100, 3⟩ ⟨"p", 0, 0, 100, 90⟩ =
      { games := 5, minutes := 100, wins := 3 + 1 } ∧
    (aggGames [⟨"p", 30, 10, 100, 90⟩, ⟨"p", 0, 0, 100, 90⟩]).wins = 2 ∧
    (aggGames [⟨"p", 30, 10, 100, 90⟩, ⟨"p", 0, 0, 100, 90⟩]).games = 1 ∧
    (aggGames [⟨"p", 30, 10, 100, 90⟩, ⟨"p", 0, 0, 100, 90⟩]).games <
      (aggGames [⟨"p", 30, 10, 100, 90⟩, ⟨"p", 0, 0, 100, 90⟩]).wins :=
  c10_wins_without_games ⟨5, 100, 3⟩ ⟨"p", 0, 0, 100, 90⟩
    (by decide) (by decide) (by norm_num [parse_minutes]) (by decide)

end Claims

end NBA
